import Mathlib

/-!
Verification of `ssh-parallels` (src/main.go): a shallow embedding of the
pure core of the tool — the guest interface-listing scanner (`getIps`), the
MAC comparison and hardware correlation (`compareMac` / `showIpAddress`),
the top-level aggregation loop of `main`, the `listBox` geometry and
navigation (`drawContent`, `moveUp`, `moveDown`, `displayAndSelect` key
handling) and the `askForUsername` backspace edit — together with theorems
settling the specification's claims about them.

Go strings are modelled as Lean `String` (one `Char` per Go byte/rune; all
inputs of interest are ASCII, where the two coincide).  Go slice
expressions that can panic are modelled as `Option`-returning functions
(`none` = runtime panic), and the panic propagates through the callers that
would crash with it.  External processes (`prlctl`, command probes) are
modelled by a `GuestEnv` record carrying the probe answers and the raw
output text the real tool would have received.
-/

set_option maxRecDepth 20000
set_option linter.unusedVariables false

namespace SshParallels

/-! ## Character classes and string helpers (models of Go `strings`/`regexp` primitives) -/

/-- Model of the regexp class `\w`. -/
def isWordChar (c : Char) : Bool := c.isAlphanum || c = '_'

/-- Model of the regexp class `[\d.]`. -/
def isIpChar (c : Char) : Bool := c.isDigit || c = '.'

/-- Model of the regexp class `[\w:]`. -/
def isMacChar (c : Char) : Bool := isWordChar c || c = ':'

/-- Model of the regexp class `\s` (RE2: `[\t\n\f\r ]`). -/
def isSpaceChar (c : Char) : Bool :=
  c = ' ' || c = '\t' || c = '\n' || c = '\r' || c = '\x0c'

/-- Model of Go `strings.ToLower` (per-rune lowering). -/
def lowerStr (s : String) : String := ⟨s.data.map Char.toLower⟩

/-- Model of Go `strings.HasPrefix`. -/
def hasPrefixStr (s p : String) : Bool := s.data.take p.data.length == p.data

/-- Consume the literal `lit` from the front of `l`, returning the rest. -/
def expectLit (lit : List Char) (l : List Char) : Option (List Char) :=
  if l.take lit.length = lit then some (l.drop lit.length) else none

/-- Try the matcher `f` at every suffix, leftmost first: the embedding of an
unanchored `regexp.FindStringSubmatch` search. -/
def scanFrom {α : Type} (f : List Char → Option α) : List Char → Option α
  | [] => f []
  | c :: cs =>
    match f (c :: cs) with
    | some r => some r
    | none => scanFrom f cs

/-! ## Embeddings of the package-level regex patterns of src/main.go.

Each `...At` function matches the pattern anchored at the head of the
character list and returns the capture groups the Go code consumes;
`scanFrom` turns it into the unanchored search `FindStringSubmatch`
performs.  Greedy `+`-runs are `takeWhile` (maximal munch is exact here:
every run is followed by a literal whose first character is outside the
run's class, so no backtracking on run length can succeed). -/

/-- `(\w+): ` — the name part shared by both branches of `beginLinePattern`. -/
def matchNameColon (l : List Char) : Option String :=
  let w := l.takeWhile isWordChar
  if w.isEmpty then none
  else if (l.drop w.length).take 2 = [':', ' '] then some ⟨w⟩ else none

/-- `beginLinePattern = (\d+: |)(\w+): .*`, returning capture group 2
(the interface name).  The first alternative (`\d+: ` present) is
preferred, as in Go's leftmost-first matching. -/
def beginAt (l : List Char) : Option String :=
  let d := l.takeWhile Char.isDigit
  let viaNum : Option String :=
    if d.isEmpty then none
    else if (l.drop d.length).take 2 = [':', ' '] then
      matchNameColon (l.drop (d.length + 2))
    else none
  match viaNum with
  | some r => some r
  | none => matchNameColon l

/-- `linkLinePattern = link/(\w+) ([\w:]+) brd ([\w:]+)`, returning groups
1 and 2 (link type, MAC) — the only ones `getIps` reads. -/
def linkAt (l : List Char) : Option (String × String) := do
  let r1 ← expectLit "link/".data l
  let t := r1.takeWhile isWordChar
  if t.isEmpty then none else
  let r2 ← expectLit [' '] (r1.drop t.length)
  let m := r2.takeWhile isMacChar
  if m.isEmpty then none else
  let r3 ← expectLit " brd ".data (r2.drop m.length)
  let b := r3.takeWhile isMacChar
  if b.isEmpty then none else some (⟨t⟩, ⟨m⟩)

/-- `inetLinePattern = inet ([\d.]+)/(\d+) brd ([\d.]+) .*`, returning
groups 1–3 (ip, prefix length, broadcast). -/
def inetAt (l : List Char) : Option (String × String × String) := do
  let r1 ← expectLit "inet ".data l
  let a := r1.takeWhile isIpChar
  if a.isEmpty then none else
  let r2 ← expectLit ['/'] (r1.drop a.length)
  let p := r2.takeWhile Char.isDigit
  if p.isEmpty then none else
  let r3 ← expectLit " brd ".data (r2.drop p.length)
  let b := r3.takeWhile isIpChar
  if b.isEmpty then none else
  match r3.drop b.length with
  | ' ' :: _ => some (⟨a⟩, ⟨p⟩, ⟨b⟩)
  | _ => none

/-- `etherLinkPattern = ether ([\w:]+).*`, returning group 1 (the MAC). -/
def etherAt (l : List Char) : Option String := do
  let r1 ← expectLit "ether ".data l
  let m := r1.takeWhile isMacChar
  if m.isEmpty then none else some ⟨m⟩

/-- `inetLinePattern2 = inet ([\d.]+)\s+netmask\s+([\d.]+)\s+broadcast\s+([\d.]+)`. -/
def inet2At (l : List Char) : Option (String × String × String) := do
  let r1 ← expectLit "inet ".data l
  let a := r1.takeWhile isIpChar
  if a.isEmpty then none else
  let s1 := (r1.drop a.length).takeWhile isSpaceChar
  if s1.isEmpty then none else
  let r2 ← expectLit "netmask".data ((r1.drop a.length).drop s1.length)
  let s2 := r2.takeWhile isSpaceChar
  if s2.isEmpty then none else
  let m := (r2.drop s2.length).takeWhile isIpChar
  if m.isEmpty then none else
  let r3 := (r2.drop s2.length).drop m.length
  let s3 := r3.takeWhile isSpaceChar
  if s3.isEmpty then none else
  let r4 ← expectLit "broadcast".data (r3.drop s3.length)
  let s4 := r4.takeWhile isSpaceChar
  if s4.isEmpty then none else
  let b := (r4.drop s4.length).takeWhile isIpChar
  if b.isEmpty then none else some (⟨a⟩, ⟨m⟩, ⟨b⟩)

/-- `beginLinePattern.FindStringSubmatch`, keeping group 2. -/
def beginLineFind (s : String) : Option String := scanFrom beginAt s.data

/-- `linkLinePattern.FindStringSubmatch`, keeping groups 1 and 2. -/
def linkLineFind (s : String) : Option (String × String) := scanFrom linkAt s.data

/-- `inetLinePattern.FindStringSubmatch`, keeping groups 1–3. -/
def inetLineFind (s : String) : Option (String × String × String) := scanFrom inetAt s.data

/-- `etherLinkPattern.FindStringSubmatch`, keeping group 1. -/
def etherLineFind (s : String) : Option String := scanFrom etherAt s.data

/-- `inetLinePattern2.FindStringSubmatch`, keeping groups 1–3. -/
def inet2LineFind (s : String) : Option (String × String × String) := scanFrom inet2At s.data

/-! ## `LinuxIpAddr` and the `getIps` scanner -/

/-- The `LinuxIpAddr` struct of src/main.go (zero value: all fields ""). -/
structure LinuxIpAddr where
  IfName : String := ""
  LinkType : String := ""
  Mac : String := ""
  Ip : String := ""
  Broadcast : String := ""
  Mask : String := ""
deriving DecidableEq, Repr

/-- `s[0] == ' ' || s[0] == '\t'` on a nonempty line (the continuation-line
test of `getIps`). -/
def isIndentHead (s : String) : Bool :=
  match s.data with
  | c :: _ => c = ' ' || c = '\t'
  | [] => false

/-- The record started at a non-indented line: `ip = &LinuxIpAddr{}` plus
`ip.IfName = m[2]` when `beginLinePattern` matches. -/
def mkRecord (s : String) : LinuxIpAddr :=
  { IfName := (beginLineFind s).getD "" }

/-- One continuation line applied to the current record: the
`if isIfconfig { ... } else { ... }` branch of the `getIps` loop body. -/
def applyInfo (isIfconfig : Bool) (s : String) (r : LinuxIpAddr) : LinuxIpAddr :=
  if isIfconfig then
    match inet2LineFind s with
    | some (a, m, b) => { r with Ip := a, Mask := m, Broadcast := b }
    | none =>
      match etherLineFind s with
      | some m => { r with LinkType := "ether", Mac := m }
      | none => r
  else
    match inetLineFind s with
    | some (a, p, b) => { r with Ip := a, Mask := p, Broadcast := b }
    | none =>
      match linkLineFind s with
      | some (t, m) => { r with LinkType := t, Mac := m }
      | none => r

/-- `if ip != nil { ips = append(ips, ip) }`. -/
def flushRec (ips : List LinuxIpAddr) : Option LinuxIpAddr → List LinuxIpAddr
  | some i => ips ++ [i]
  | none => ips

/-- The scanner loop of `getIps` over the output lines, with the running
`ips` accumulator and the nullable current record `ip`; the final flush at
end of input included. -/
def scanIps (isIfconfig : Bool) (ips : List LinuxIpAddr) (cur : Option LinuxIpAddr) :
    List String → List LinuxIpAddr
  | [] => flushRec ips cur
  | s :: rest =>
    if s.data.isEmpty then scanIps isIfconfig ips cur rest
    else if isIndentHead s then
      match cur with
      | none => scanIps isIfconfig ips none rest
      | some r => scanIps isIfconfig ips (some (applyInfo isIfconfig s r)) rest
    else scanIps isIfconfig (flushRec ips cur) (some (mkRecord s)) rest

/-- The external world seen by one VM's probe: whether `whereis` resolves
each listing command inside the guest, and the raw text each command would
print.  (Models the `testCommandExists` / `vm.exec` collaborators.) -/
structure GuestEnv where
  ifconfigExists : Bool := false
  ipExists : Bool := false
  ifconfigOutput : List String := []
  ipOutput : List String := []
deriving DecidableEq, Repr

/-- `getIps` of src/main.go: probe `ifconfig` first, then `ip`; scan the
chosen command's output; with neither command, return the zero-record list
together with the "No command to get ip address" error.  Mirrors the Go
`(ips, err)` return pair. -/
def getIps (env : GuestEnv) : List LinuxIpAddr × Option String :=
  if env.ifconfigExists then (scanIps true [] none env.ifconfigOutput, none)
  else if env.ipExists then (scanIps false [] none env.ipOutput, none)
  else ([], some "No command to get ip address")

/-! ## MAC comparison and correlation (`compareMac` / `showIpAddress`) -/

/-- The normalization performed on the hypervisor MAC inside `compareMac`:
`m := strings.ToLower(prlMac)` followed by
`fmt.Sprintf("%s:%s:%s:%s:%s:%s", m[0:2], m[2:4], m[4:6], m[6:8], m[8:10], m[10:])`.
Every slice is in bounds exactly when `m` has at least 10 bytes; a shorter
input panics, modelled as `none`. -/
def normalizeMac (prlMac : String) : Option String :=
  let m := (lowerStr prlMac).data
  if 10 ≤ m.length then
    some ⟨m.take 2 ++ ':' :: (m.drop 2).take 2 ++ ':' :: (m.drop 4).take 2 ++
          ':' :: (m.drop 6).take 2 ++ ':' :: (m.drop 8).take 2 ++ ':' :: m.drop 10⟩
  else none

/-- `compareMac` of src/main.go; `none` models the slice-bounds panic. -/
def compareMac (linuxMac prlMac : String) : Option Bool :=
  (normalizeMac prlMac).map (fun m => linuxMac == m)

/-- A dynamic value in the `map[string]interface{}` of a hardware adapter
descriptor, as produced by JSON unmarshalling. -/
inductive GoVal where
  | vbool : Bool → GoVal
  | vstr : String → GoVal
  | vnull : GoVal
deriving DecidableEq, Repr

/-- One adapter's `map[string]interface{}` (association-list model; Go map
iteration order is unspecified but fixed within a run, which the list order
represents). -/
abbrev Params := List (String × GoVal)

/-- `params[k]`: map lookup returning the nil interface (`none`) on a
missing key. -/
def getParam (ps : Params) (k : String) : Option GoVal :=
  (ps.find? (fun p => p.1 == k)).map (·.2)

/-- `v, _ := params[k].(string)`: the ok-ignored type assertion, yielding
`""` when the key is absent or not a string. -/
def getStr (ps : Params) (k : String) : String :=
  match getParam ps k with
  | some (.vstr s) => s
  | _ => ""

/-- The fields of the `VM` struct that `showIpAddress` reads, with
`Hardware` as an association list of adapter key → descriptor map. -/
structure VMm where
  ID : String := ""
  Name : String := ""
  State : String := ""
  OS : String := ""
  Hardware : List (String × Params) := []
deriving DecidableEq, Repr

/-- The `IpAddr` struct of src/main.go (the `*VM` and `*LinuxIpAddr`
pointers carried by value). -/
structure IpAddr where
  IP : LinuxIpAddr
  VM : VMm
  Name : String
  IsDefault : Bool
  «Type» : String
deriving DecidableEq, Repr

/-- The inner `for dev, params := range vm.Hardware` loop of
`showIpAddress` for one interface record: skip non-`net` keys and disabled
descriptors, stop (`break`) at the first descriptor whose normalized MAC
equals the record's; the outer `none` models a `compareMac` panic. -/
def matchAdapter (vm : VMm) (ip : LinuxIpAddr) : List (String × Params) → Option (Option IpAddr)
  | [] => some none
  | (dev, params) :: rest =>
    if hasPrefixStr dev "net" then
      if getParam params "enabled" = some (.vbool true) then
        match compareMac ip.Mac (getStr params "mac") with
        | none => none
        | some true =>
          some (some { VM := vm, IP := ip, Name := dev,
                       IsDefault := getParam params "iface" == some (.vstr "default"),
                       «Type» := getStr params "type" })
        | some false => matchAdapter vm ip rest
      else matchAdapter vm ip rest
    else matchAdapter vm ip rest

/-- The outer `for _, ip := range ips` correlation loop of `showIpAddress`:
each record contributes at most one entry (first matching adapter wins),
entries in record order; `none` models a propagated panic. -/
def correlate (vm : VMm) : List LinuxIpAddr → Option (List IpAddr)
  | [] => some []
  | ip :: rest =>
    match matchAdapter vm ip vm.Hardware with
    | none => none
    | some none => correlate vm rest
    | some (some e) => (correlate vm rest).map (fun l => e :: l)

/-- `showIpAddress` of src/main.go, returning the Go `(addrs, err)` pair;
the outer `none` models a propagated `compareMac` panic. -/
def showIpAddress (env : GuestEnv) (vm : VMm) : Option (List IpAddr × Option String) :=
  if vm.State ≠ "running" then
    some ([], some (vm.Name ++ "(" ++ vm.ID ++ ") not running"))
  else if vm.OS = "linux" ∨ vm.OS = "ubuntu" then
    match getIps env with
    | (_, some e) => some ([], some e)
    | (ips, none) => (correlate vm ips).map (fun l => (l, none))
  else some ([], some (vm.OS ++ " is not supported"))

/-! ## The aggregation loop of `main` -/

/-- The `for _, vm := range listVMs()` loop of `main`: a VM whose
`showIpAddress` errors is skipped (`continue`); otherwise its entries are
appended in order.  `none` models a propagated panic. -/
def aggregate : List (VMm × GuestEnv) → Option (List IpAddr)
  | [] => some []
  | (vm, env) :: rest =>
    match showIpAddress env vm with
    | none => none
    | some (_, some _) => aggregate rest
    | some (ips, none) => (aggregate rest).map (fun r => ips ++ r)

/-! ## `listBox` geometry and navigation -/

/-- The geometry fields `drawContent` computes on the `listBox`. -/
structure Geometry where
  height : Nat
  width : Nat
  centerX : Int
  centerY : Int
  titlePosX : Int
  titlePosY : Int
  originX : Int
  originY : Int
deriving DecidableEq, Repr, Inhabited

/-- One iteration of the width loop of `drawContent`:
`if len(l) > lb.width { lb.width = len(l) + 12 }`. -/
def widthStep (w : Nat) (l : String) : Nat :=
  if l.length > w then l.length + 12 else w

/-- The whole width loop, starting from the current `lb.width`. -/
def foldWidth (w : Nat) (content : List String) : Nat :=
  content.foldl widthStep w

/-- The geometry computation of `drawContent` (src/main.go lines 299–322):
`none` is the "miss content" error on an empty content list.  `prevWidth`
is the `lb.width` value before the call (0 for a fresh `listBox`); `tw`/`th`
are the terminal dimensions from `termbox.Size()`. -/
def drawContentGeometry (prevWidth : Nat) (title : String) (content : List String)
    (tw th : Nat) : Option Geometry :=
  if content.isEmpty then none
  else
    let height := content.length + 2
    let w1 := foldWidth prevWidth content
    let width := if w1 < title.length then title.length else w1
    let centerX : Int := (tw / 2 : Nat)
    let centerY : Int := (th / 2 : Nat)
    some { height := height, width := width,
           centerX := centerX, centerY := centerY,
           titlePosX := centerX - ((title.length / 2 : Nat) : Int),
           titlePosY := centerY - ((height / 2 : Nat) : Int) - 2,
           originX := centerX - ((width / 2 : Nat) : Int),
           originY := centerY - ((height / 2 : Nat) : Int) }

/-- `moveDown` of `listBox`: `if lb.selectIndex < len(lb.content)-1 { lb.selectIndex++ }`. -/
def moveDown (len idx : Int) : Int := if idx < len - 1 then idx + 1 else idx

/-- `moveUp` of `listBox`: `if lb.selectIndex > 0 { lb.selectIndex-- }`. -/
def moveUp (len idx : Int) : Int := if idx > 0 then idx - 1 else idx

/-- The navigation events of `displayAndSelect` that move the selection
(arrow/page keys, `k`/`j`, mouse wheel). -/
inductive NavEvent where
  | arrowUp | arrowLeft | pgup | keyK | wheelUp
  | arrowDown | arrowRight | pgdn | keyJ | wheelDown
deriving DecidableEq, Repr

/-- Dispatch of one navigation event to `moveUp`/`moveDown`, as in the
`displayAndSelect` event loop. -/
def navStep (len idx : Int) : NavEvent → Int
  | .arrowUp | .arrowLeft | .pgup | .keyK | .wheelUp => moveUp len idx
  | .arrowDown | .arrowRight | .pgdn | .keyJ | .wheelDown => moveDown len idx

/-- A whole sequence of navigation events applied to the selection index. -/
def navRun (len idx : Int) (es : List NavEvent) : Int :=
  es.foldl (navStep len) idx

/-- The Go `error` values `displayAndSelect` can return on a key event:
the package-level `errCtrlC` or any other error. -/
inductive GoErr where
  | ctrlC
  | other : String → GoErr
deriving DecidableEq, Repr

/-- A keyboard event as seen by the `termbox.EventKey` branch: either a
special key or a plain character. -/
inductive KeyEvent where
  | ctrlC | esc | enter
  | arrowUp | arrowDown | arrowLeft | arrowRight | pgup | pgdn
  | ch : Char → KeyEvent
deriving DecidableEq, Repr

/-- The effect of one key event on the `displayAndSelect` session: either
the loop continues with a (possibly moved) selection index, or the call
returns `(index, err)`. -/
inductive SelStep where
  | moved : Int → SelStep
  | finished : Int → Option GoErr → SelStep
deriving DecidableEq, Repr

/-- The `termbox.EventKey` branch of `displayAndSelect` (src/main.go lines
395–420): Ctrl-C returns `(lb.selectIndex, errCtrlC)`; Esc and the
`q`/`Q` characters return `(0, errCtrlC)`; Enter returns
`(lb.selectIndex, nil)`; the navigation keys move the selection. -/
def selectKeyStep (len idx : Int) : KeyEvent → SelStep
  | .ctrlC => .finished idx (some .ctrlC)
  | .arrowUp | .arrowLeft | .pgup => .moved (moveUp len idx)
  | .arrowDown | .arrowRight | .pgdn => .moved (moveDown len idx)
  | .esc => .finished 0 (some .ctrlC)
  | .enter => .finished idx none
  | .ch c =>
    if c = 'q' ∨ c = 'Q' then .finished 0 (some .ctrlC)
    else if c = 'k' ∨ c = 'K' then .moved (moveUp len idx)
    else if c = 'j' ∨ c = 'J' then .moved (moveDown len idx)
    else .moved idx

/-! ## The `askForUsername` backspace edit -/

/-- The backspace/delete handler of `askForUsername`:
`name = name[:len(name)-2]`.  The slice bound `len(name)-2` is negative
when the buffer holds fewer than 2 elements, a runtime panic (`none`). -/
def backspaceName (name : String) : Option String :=
  if 2 ≤ name.length then some ⟨name.data.take (name.length - 2)⟩ else none

/-- A run of consecutive backspace events on the buffer; a panic sticks. -/
def backspaceIter (name : String) : Nat → Option String
  | 0 => some name
  | n + 1 =>
    match backspaceName name with
    | none => none
    | some r => backspaceIter r n

/-! ## Spec-side definitions

These formalize the claims' own words, to be compared against the
source-derived functions above. -/

/-- A line that starts a new interface record in the `getIps` scanner:
nonempty and not indented (in modern-format text, exactly the interface
marker lines). -/
def isMarkerLine (s : String) : Bool := !s.data.isEmpty && !isIndentHead s

/-- A nonempty indented continuation line. -/
def isInfoLine (s : String) : Bool := !s.data.isEmpty && isIndentHead s

/-- Modelled from the claim (C6): collect one block per marker line — the
marker plus the following lines up to the next marker or end of input. -/
def blocksAux (marker : String) (body : List String) :
    List String → List (String × List String)
  | [] => [(marker, body)]
  | s :: rest =>
    if isMarkerLine s then (marker, body) :: blocksAux s [] rest
    else blocksAux marker (body ++ [s]) rest

/-- Modelled from the claim (C6): split raw text into interface blocks,
dropping the lines before the first marker. -/
def blocks : List String → List (String × List String)
  | [] => []
  | s :: rest => if isMarkerLine s then blocksAux s [] rest else blocks rest

/-- Modelled from the claim (C6): the record of one block — the marker's
fresh record with the body's info lines applied in order. -/
def assembleBlock (isIfconfig : Bool) (marker : String) (body : List String) : LinuxIpAddr :=
  (body.filter isInfoLine).foldl (fun r s => applyInfo isIfconfig s r) (mkRecord marker)

/-- Modelled from the claim (C6): exactly one record per marker line, each
built from its own block. -/
def assembleSpec (isIfconfig : Bool) (lines : List String) : List LinuxIpAddr :=
  (blocks lines).map (fun p => assembleBlock isIfconfig p.1 p.2)

/-- Modelled from the claim (C3): the probe/scan structure of `getIps` but
with the modern `ip address show` listing probed first, as the claim
asserts. -/
def getIpsModernFirstClaim (env : GuestEnv) : List LinuxIpAddr × Option String :=
  if env.ipExists then (scanIps false [] none env.ipOutput, none)
  else if env.ifconfigExists then (scanIps true [] none env.ifconfigOutput, none)
  else ([], some "No command to get ip address")

/-- The length of the longest content line (0 for no lines). -/
def maxLineLen : List String → Nat
  | [] => 0
  | l :: rest => max l.length (maxLineLen rest)

/-- Modelled from the claim (C7): the entry's adapter key carries the
"net" prefix and names an enabled descriptor of the VM's hardware
mapping. -/
def entryFromEnabledNet (vm : VMm) (e : IpAddr) : Bool :=
  hasPrefixStr e.Name "net" &&
    vm.Hardware.any (fun p => p.1 == e.Name &&
      getParam p.2 "enabled" == some (.vbool true))

/-! ## Concrete fixtures used by counterexamples and witnesses -/

/-- A guest offering only `ifconfig`, reporting one interface with no
recognized link line (so its MAC stays `""`). -/
def envNetOnly : GuestEnv :=
  { ifconfigExists := true, ifconfigOutput := ["eth0: flags=4163<UP>  mtu 1500"] }

/-- A running Linux VM whose net0 descriptor is enabled but carries no
"mac" field, so the correlation passes `""` to `compareMac`. -/
def vmNoMacField : VMm :=
  { ID := "vm-2", Name := "nomac", State := "running", OS := "linux",
    Hardware := [("net0", [("enabled", GoVal.vbool true)])] }

/-- A guest on which both listing commands exist and report different
addresses, separating the two probe orders. -/
def envBothCmds : GuestEnv :=
  { ifconfigExists := true, ipExists := true,
    ifconfigOutput :=
      ["eth0: flags=4163<UP>  mtu 1500",
       "        inet 10.211.55.5  netmask 255.255.255.0  broadcast 10.211.55.255"],
    ipOutput :=
      ["2: eth0: <BROADCAST,MULTICAST,UP,LOWER_UP> mtu 1500",
       "    inet 10.211.55.6/24 brd 10.211.55.255 scope global eth0"] }

/-- A running Linux VM with one enabled net0 adapter. -/
def vmDupMac : VMm :=
  { ID := "vm-1", Name := "dup", State := "running", OS := "linux",
    Hardware := [("net0", [("enabled", GoVal.vbool true),
                           ("mac", GoVal.vstr "001c42c45c24")])] }

/-- A guest interface record whose MAC matches vmDupMac's net0 adapter. -/
def recEth0 : LinuxIpAddr :=
  { IfName := "eth0", LinkType := "ether", Mac := "00:1c:42:c4:5c:24",
    Ip := "10.211.55.5", Broadcast := "10.211.55.255", Mask := "255.255.255.0" }

/-- A second record reporting the same MAC on another interface name. -/
def recEth1 : LinuxIpAddr :=
  { IfName := "eth1", LinkType := "ether", Mac := "00:1c:42:c4:5c:24",
    Ip := "10.211.55.7", Broadcast := "10.211.55.255", Mask := "255.255.255.0" }

/-- The entry `correlate vmDupMac [recEth0]` produces. -/
def ipEntryW : IpAddr :=
  { VM := vmDupMac, IP := recEth0, Name := "net0", IsDefault := false, «Type» := "" }

/-- A stopped VM. -/
def vmStopped : VMm :=
  { ID := "vm-3", Name := "halted", State := "stopped", OS := "linux" }

/-- A guest with neither listing command. -/
def envEmpty : GuestEnv := {}

/-- A legacy-format guest reporting eth0 with the MAC of vmDupMac's
adapter. -/
def envLegacyFull : GuestEnv :=
  { ifconfigExists := true,
    ifconfigOutput :=
      ["eth0: flags=4163<UP>  mtu 1500",
       "        inet 10.211.55.5  netmask 255.255.255.0  broadcast 10.211.55.255",
       "        ether 00:1c:42:c4:5c:24  txqueuelen 1000  (Ethernet)"] }

/-! ## Claim theorems -/

/-- C1 (code bug): the claim — backed by the spec's "clamped so buffer
length never goes negative" — says a backspace on an empty or one-element
buffer is a no-op, not an error, while on a buffer of length ≥ 2 it removes
the two most recently appended elements.  The code runs
`name = name[:len(name)-2]` unguarded: on buffers of length 0 or 1 the
slice bound is negative and the program panics (`none`), so the claim's
safe-clamping part is the intent and the code a slip.  Evaluated here at
the failing inputs: backspace on `""` and on `"a"` panics; on `"abcd"` it
removes the last two elements; a third backspace after two successful ones
on `"abcde"` panics. -/
theorem C1_backspace_code_bug :
    backspaceName "" = none ∧ backspaceName "a" = none ∧
    backspaceName "abcd" = some "ab" ∧ backspaceIter "abcde" 3 = none := by decide

/-- C5 counterexample: MAC normalization, applied to the already-normalized
lowercase colon-separated value "aa:11:bb:22:cc:33", does not return the
same value — it slices at fixed positions and inserts further colons — so
the claimed idempotence fails. -/
theorem C5_counterexample :
    normalizeMac "aa:11:bb:22:cc:33" ≠ some "aa:11:bb:22:cc:33" := by decide

/-- C5 (amended): normalization lower-cases its input and inserts a colon
after every 2 of the first 10 characters: "AA11BB22CC33" normalizes to
"aa:11:bb:22:cc:33", and agrees with its lower-case form "aa11bb22cc33"
(case-insensitivity); but it is not idempotent — re-normalizing
"aa:11:bb:22:cc:33" yields "aa::1:1::bb::2:2:cc:33". -/
theorem C5_amended :
    normalizeMac "AA11BB22CC33" = some "aa:11:bb:22:cc:33" ∧
    normalizeMac "aa11bb22cc33" = normalizeMac "AA11BB22CC33" ∧
    normalizeMac "aa:11:bb:22:cc:33" = some "aa::1:1::bb::2:2:cc:33" := by decide

/-- C4 counterexample: in `displayAndSelect`, closing with the interrupt
key (Ctrl-C) and closing with the escape key or the quit character produce
the *same* result at the initial selection index 0 — the identical pair
`(0, errCtrlC)` — so the two cancellation causes are not reported as
distinct outcomes to the caller. -/
theorem C4_counterexample :
    selectKeyStep 5 0 KeyEvent.ctrlC = selectKeyStep 5 0 KeyEvent.esc ∧
    selectKeyStep 5 0 (KeyEvent.ch 'q') = selectKeyStep 5 0 KeyEvent.ctrlC := by decide

/-- C4 (amended): interrupt (Ctrl-C), escape and the quit characters all
end the `displayAndSelect` session without a selection and all report the
same error value `errCtrlC`; they are not distinguished by the error
(Ctrl-C returns the current index and Esc/quit return index 0, which
coincide at the initial index). -/
theorem C4_amended : ∀ (len idx : Int) (ev : KeyEvent),
    (ev = .ctrlC ∨ ev = .esc ∨ ev = .ch 'q' ∨ ev = .ch 'Q') →
    ∃ i : Int, selectKeyStep len idx ev = .finished i (some GoErr.ctrlC) := by
  intro len idx ev h
  rcases h with rfl | rfl | rfl | rfl
  · exact ⟨idx, rfl⟩
  · exact ⟨0, rfl⟩
  · exact ⟨0, by simp [selectKeyStep]⟩
  · exact ⟨0, by simp [selectKeyStep]⟩

/-- C4 witness: the amended theorem applied at the escape key on a
concrete session state. -/
theorem C4_amended_witness :
    (KeyEvent.esc = KeyEvent.ctrlC ∨ KeyEvent.esc = KeyEvent.esc ∨
     KeyEvent.esc = KeyEvent.ch 'q' ∨ KeyEvent.esc = KeyEvent.ch 'Q') ∧
    ∃ i : Int, selectKeyStep 5 2 KeyEvent.esc = .finished i (some GoErr.ctrlC) :=
  ⟨Or.inr (Or.inl rfl), C4_amended 5 2 KeyEvent.esc (Or.inr (Or.inl rfl))⟩

/-- C3 counterexample: on a guest where both listing commands exist, the
code uses the legacy `ifconfig` output (it probes `ifconfig` first), while
the claimed modern-first preference order would use the `ip address show`
output; the two disagree on the reported address, so the claim's order is
wrong. -/
theorem C3_counterexample :
    getIps envBothCmds ≠ getIpsModernFirstClaim envBothCmds := by decide

/-- C3 (amended): the two existence probes are attempted in a fixed
preference order with the *legacy* `ifconfig` listing probed first; the
first command that exists is used exclusively for the VM (the result does
not depend on the other command's availability or output), and if neither
exists the VM yields zero records together with the "No command to get ip
address" error. -/
theorem C3_amended : ∀ env : GuestEnv,
    (env.ifconfigExists = true →
      getIps env = getIps { env with ipExists := false, ipOutput := [] } ∧
      (getIps env).2 = none) ∧
    (env.ifconfigExists = false → env.ipExists = true →
      getIps env = getIps { env with ifconfigOutput := [] } ∧
      (getIps env).2 = none) ∧
    (env.ifconfigExists = false → env.ipExists = false →
      getIps env = ([], some "No command to get ip address")) := by
  intro env
  refine ⟨fun h => ?_, fun h h' => ?_, fun h h' => ?_⟩
  · simp [getIps, h]
  · simp [getIps, h, h']
  · simp [getIps, h, h']

/-- C3 witness: the amended theorem applied at the two-command guest. -/
theorem C3_amended_witness :
    envBothCmds.ifconfigExists = true ∧
    (getIps envBothCmds = getIps { envBothCmds with ipExists := false, ipOutput := [] } ∧
     (getIps envBothCmds).2 = none) :=
  ⟨rfl, (C3_amended envBothCmds).1 rfl⟩

/-- C2: `compareMac` is total exactly when the hypervisor-side MAC string
has at least 10 characters (every fixed-position slice `m[0:2]`…`m[10:]`
then stays in bounds), and the panicking branch is reachable from the
public correlation interface: a running Linux VM whose enabled net0
descriptor has no "mac" field makes the correlation pass `""` to
`compareMac`, and `showIpAddress` panics (`none`). -/
theorem C2_confirmed :
    (∀ linuxMac prlMac : String,
      (compareMac linuxMac prlMac).isSome ↔ 10 ≤ prlMac.length) ∧
    showIpAddress envNetOnly vmNoMacField = none := by
  constructor
  · intro l p
    have hlen : ((lowerStr p).data).length = p.length := by
      show (p.data.map Char.toLower).length = p.length
      rw [List.length_map]; rfl
    by_cases h : 10 ≤ p.length
    · have h' : 10 ≤ ((lowerStr p).data).length := by omega
      simp [compareMac, normalizeMac, h', h]
      show 10 ≤ (lowerStr p).data.length
      exact h'
    · have h' : ¬ 10 ≤ ((lowerStr p).data).length := by omega
      simp [compareMac, normalizeMac, h', h]
      show (lowerStr p).data.length < 10
      omega
  · decide

/-- C2 witness: the totality criterion applied at a concrete 12-character
hypervisor MAC. -/
theorem C2_confirmed_witness :
    ((compareMac "00:1c:42:c4:5c:24" "001C42C45C24").isSome ↔
      10 ≤ ("001C42C45C24" : String).length) ∧
    showIpAddress envNetOnly vmNoMacField = none :=
  ⟨C2_confirmed.1 "00:1c:42:c4:5c:24" "001C42C45C24", C2_confirmed.2⟩

/-- One navigation event keeps the selection index inside [0, len-1]. -/
theorem navStep_bounds {len idx : Int} (e : NavEvent) (h0 : 0 ≤ idx)
    (h1 : idx ≤ len - 1) : 0 ≤ navStep len idx e ∧ navStep len idx e ≤ len - 1 := by
  cases e <;> simp only [navStep, moveUp, moveDown] <;> split <;> omega

/-- A whole event sequence keeps the selection index inside [0, len-1]. -/
theorem navRun_bounds : ∀ (es : List NavEvent) (len idx : Int), 0 ≤ idx →
    idx ≤ len - 1 → 0 ≤ navRun len idx es ∧ navRun len idx es ≤ len - 1
  | [], _, _, h0, h1 => ⟨h0, h1⟩
  | e :: es, len, idx, h0, h1 => by
    have h := navStep_bounds e h0 h1
    exact navRun_bounds es len (navStep len idx e) h.1 h.2

/-- C9: for a non-empty content list and a selection index inside
[0, len-1], every finite sequence of navigation events (arrow keys, page
keys, `k`/`j`, mouse wheel) leaves the index inside [0, len-1]; each single
event moves the index by at most 1, and at either boundary the outward
move is a no-op — never a wrap-around. -/
theorem C9_confirmed : ∀ (len idx : Int) (e : NavEvent) (es : List NavEvent),
    1 ≤ len → 0 ≤ idx → idx ≤ len - 1 →
    (0 ≤ navRun len idx es ∧ navRun len idx es ≤ len - 1) ∧
    (idx - 1 ≤ navStep len idx e ∧ navStep len idx e ≤ idx + 1) ∧
    moveUp len 0 = 0 ∧ moveDown len (len - 1) = len - 1 := by
  intro len idx e es hlen h0 h1
  refine ⟨navRun_bounds es len idx h0 h1, ?_, ?_, ?_⟩
  · cases e <;> simp only [navStep, moveUp, moveDown] <;> split <;> omega
  · simp [moveUp]
  · simp [moveDown]

/-- C9 witness: the invariant applied to a concrete 3-element list starting
at index 0 with a boundary-crossing event sequence. -/
theorem C9_confirmed_witness :
    (1 : Int) ≤ 3 ∧ (0 : Int) ≤ 0 ∧ (0 : Int) ≤ 3 - 1 ∧
    ((0 ≤ navRun 3 0 [NavEvent.arrowUp, NavEvent.pgdn, NavEvent.wheelDown, NavEvent.keyJ] ∧
      navRun 3 0 [NavEvent.arrowUp, NavEvent.pgdn, NavEvent.wheelDown, NavEvent.keyJ] ≤ 3 - 1) ∧
     (0 - 1 ≤ navStep 3 0 NavEvent.arrowUp ∧ navStep 3 0 NavEvent.arrowUp ≤ 0 + 1) ∧
     moveUp 3 0 = 0 ∧ moveDown 3 (3 - 1) = 3 - 1) :=
  ⟨by decide, by decide, by decide,
   C9_confirmed 3 0 NavEvent.arrowUp
     [NavEvent.arrowUp, NavEvent.pgdn, NavEvent.wheelDown, NavEvent.keyJ]
     (by decide) (by decide) (by decide)⟩

/-- The width loop never shrinks the running width. -/
theorem le_foldWidth : ∀ (content : List String) (w : Nat), w ≤ foldWidth w content
  | [], w => le_refl w
  | x :: xs, w => by
    have h1 : w ≤ widthStep w x := by unfold widthStep; split <;> omega
    exact le_trans h1 (le_foldWidth xs (widthStep w x))

/-- The final width dominates every content line length. -/
theorem maxLineLen_le_foldWidth : ∀ (content : List String) (w : Nat),
    maxLineLen content ≤ foldWidth w content
  | [], w => Nat.zero_le _
  | x :: xs, w => by
    have h2 : x.length ≤ widthStep w x := by unfold widthStep; split <;> omega
    have h3 := le_foldWidth xs (widthStep w x)
    have h1 := maxLineLen_le_foldWidth xs (widthStep w x)
    show max x.length (maxLineLen xs) ≤ foldWidth (widthStep w x) xs
    exact max_le (le_trans h2 h3) h1

/-- The width loop is bounded by `max w (longest line + 12)`. -/
theorem foldWidth_le : ∀ (content : List String) (w : Nat),
    foldWidth w content ≤ max w (maxLineLen content + 12)
  | [], w => le_max_left _ _
  | x :: xs, w => by
    have h1 := foldWidth_le xs (widthStep w x)
    have h2 : widthStep w x ≤ max w (x.length + 12) := by unfold widthStep; split <;> omega
    show foldWidth (widthStep w x) xs ≤ max w (max x.length (maxLineLen xs) + 12)
    omega

/-- C8 counterexample: with title "t" and content lines of lengths 10 and
20 (shorter line first), `drawContent` computes box width 22 — the first
line raises the width to 10+12 and the longer line, not exceeding 22, never
raises it again — while the claimed formula
`max(longest content line length + 12, title length)` gives 32. -/
theorem C8_counterexample :
    (drawContentGeometry 0 "t" ["aaaaaaaaaa", "aaaaaaaaaaaaaaaaaaaa"] 80 24).map
        Geometry.width ≠
      some (max (maxLineLen ["aaaaaaaaaa", "aaaaaaaaaaaaaaaaaaaa"] + 12)
        ("t" : String).length) := by decide

/-- C8 (amended): for a fresh `listBox` (previous width 0) with non-empty
content, the geometry satisfies: height = row count + 2; the width is at
least the title length and every content line length, and at most
`max(longest line + 12, title length)` — but it is computed by a
first-exceed fold, so it can fall short of `longest + 12` (see the
counterexample); the box is centered via integer-divided half-extents of
the terminal dimensions, and the title sits two rows above the box. -/
theorem C8_amended : ∀ (title : String) (content : List String) (tw th : Nat),
    content ≠ [] →
    (drawContentGeometry 0 title content tw th).isSome = true ∧
    (let g := (drawContentGeometry 0 title content tw th).getD default
     g.height = content.length + 2 ∧
     title.length ≤ g.width ∧ maxLineLen content ≤ g.width ∧
     g.width ≤ max (maxLineLen content + 12) title.length ∧
     g.centerX = ((tw / 2 : Nat) : Int) ∧ g.centerY = ((th / 2 : Nat) : Int) ∧
     g.originX = g.centerX - ((g.width / 2 : Nat) : Int) ∧
     g.originY = g.centerY - ((g.height / 2 : Nat) : Int) ∧
     g.titlePosX = g.centerX - ((title.length / 2 : Nat) : Int) ∧
     g.titlePosY = g.originY - 2) := by
  intro title content tw th hne
  have hc : content.isEmpty = false := by
    cases content with
    | nil => exact absurd rfl hne
    | cons a l => rfl
  have h1 := maxLineLen_le_foldWidth content 0
  have h2 := foldWidth_le content 0
  have h3 : foldWidth 0 content ≤ maxLineLen content + 12 := by omega
  have hW1 : title.length ≤
      (if foldWidth 0 content < title.length then title.length else foldWidth 0 content) := by
    split <;> omega
  have hW2 : maxLineLen content ≤
      (if foldWidth 0 content < title.length then title.length else foldWidth 0 content) := by
    split <;> omega
  have hW3 : (if foldWidth 0 content < title.length then title.length else foldWidth 0 content) ≤
      max (maxLineLen content + 12) title.length := by
    split <;> omega
  have hg : drawContentGeometry 0 title content tw th = some
      { height := content.length + 2,
        width := if foldWidth 0 content < title.length then title.length
                 else foldWidth 0 content,
        centerX := ((tw / 2 : Nat) : Int), centerY := ((th / 2 : Nat) : Int),
        titlePosX := ((tw / 2 : Nat) : Int) - ((title.length / 2 : Nat) : Int),
        titlePosY := ((th / 2 : Nat) : Int) - (((content.length + 2) / 2 : Nat) : Int) - 2,
        originX := ((tw / 2 : Nat) : Int) -
          (((if foldWidth 0 content < title.length then title.length
             else foldWidth 0 content) / 2 : Nat) : Int),
        originY := ((th / 2 : Nat) : Int) - (((content.length + 2) / 2 : Nat) : Int) } := by
    unfold drawContentGeometry
    rw [hc]
    rfl
  rw [hg]
  exact ⟨rfl, rfl, hW1, hW2, hW3, rfl, rfl, rfl, rfl, rfl, rfl⟩

/-- C8 witness: the amended geometry theorem applied at a concrete title,
content and terminal size. -/
theorem C8_amended_witness :
    (["choose a vm", "second line"] : List String) ≠ [] ∧
    ((drawContentGeometry 0 "Choose VM" ["choose a vm", "second line"] 80 24).isSome = true ∧
     (let g := (drawContentGeometry 0 "Choose VM" ["choose a vm", "second line"] 80 24).getD default
      g.height = (["choose a vm", "second line"] : List String).length + 2 ∧
      ("Choose VM" : String).length ≤ g.width ∧
      maxLineLen ["choose a vm", "second line"] ≤ g.width ∧
      g.width ≤ max (maxLineLen ["choose a vm", "second line"] + 12) ("Choose VM" : String).length ∧
      g.centerX = ((80 / 2 : Nat) : Int) ∧ g.centerY = ((24 / 2 : Nat) : Int) ∧
      g.originX = g.centerX - ((g.width / 2 : Nat) : Int) ∧
      g.originY = g.centerY - ((g.height / 2 : Nat) : Int) ∧
      g.titlePosX = g.centerX - ((("Choose VM" : String).length / 2 : Nat) : Int) ∧
      g.titlePosY = g.originY - 2)) :=
  ⟨by decide, C8_amended "Choose VM" ["choose a vm", "second line"] 80 24 (by decide)⟩

/-- A successful inner-loop match comes from an enabled descriptor of the
traversed mapping whose key has the "net" prefix. -/
theorem matchAdapter_props : ∀ (hw : List (String × Params)) (vm : VMm)
    (ip : LinuxIpAddr) (e : IpAddr), matchAdapter vm ip hw = some (some e) →
    hasPrefixStr e.Name "net" = true ∧
    hw.any (fun p => p.1 == e.Name &&
      getParam p.2 "enabled" == some (.vbool true)) = true
  | [], vm, ip, e, h => by simp [matchAdapter] at h
  | (dev, params) :: rest, vm, ip, e, h => by
    unfold matchAdapter at h
    by_cases h1 : hasPrefixStr dev "net" = true
    · rw [if_pos h1] at h
      by_cases h2 : getParam params "enabled" = some (.vbool true)
      · rw [if_pos h2] at h
        cases hcmp : compareMac ip.Mac (getStr params "mac") with
        | none => rw [hcmp] at h; exact absurd h (by simp)
        | some b =>
          rw [hcmp] at h
          cases b with
          | true =>
            simp only [Option.some.injEq] at h
            subst h
            refine ⟨h1, ?_⟩
            simp [List.any_cons, h2]
          | false =>
            have ih := matchAdapter_props rest vm ip e h
            exact ⟨ih.1, by simp [List.any_cons, ih.2]⟩
      · rw [if_neg h2] at h
        have ih := matchAdapter_props rest vm ip e h
        exact ⟨ih.1, by simp [List.any_cons, ih.2]⟩
    · rw [if_neg h1] at h
      have ih := matchAdapter_props rest vm ip e h
      exact ⟨ih.1, by simp [List.any_cons, ih.2]⟩

/-- C7 counterexample: two interface records reporting the same MAC (a
reachable `getIps` output) both resolve against the single enabled net0
descriptor, so the correlation emits two entries with the same (VM,
adapter key) pair — refuting the claimed uniqueness. -/
theorem C7_counterexample :
    ¬ ((correlate vmDupMac [recEth0, recEth1]).getD []).Pairwise
        (fun a b => ¬ (a.VM = b.VM ∧ a.Name = b.Name)) := by decide

/-- C7 (amended): when the correlation completes without a panic, every
produced entry's adapter key has the "net" prefix and names an enabled
descriptor of the VM's hardware mapping (disabled and non-"net"
descriptors never produce entries), and each interface record contributes
at most one entry; but two records with equal MACs may both resolve to the
same adapter key, so (VM, adapter key) pairs can repeat (see the
counterexample). -/
theorem C7_amended : ∀ (vm : VMm) (ips : List LinuxIpAddr) (l : List IpAddr),
    correlate vm ips = some l →
    l.all (entryFromEnabledNet vm) = true ∧ l.length ≤ ips.length
  | vm, [], l, h => by
    simp only [correlate, Option.some.injEq] at h
    subst h
    exact ⟨rfl, Nat.le_refl 0⟩
  | vm, ip :: rest, l, h => by
    unfold correlate at h
    cases hm : matchAdapter vm ip vm.Hardware with
    | none => rw [hm] at h; exact absurd h (by simp)
    | some o =>
      rw [hm] at h
      cases o with
      | none =>
        have ih := C7_amended vm rest l h
        exact ⟨ih.1, Nat.le_succ_of_le ih.2⟩
      | some e =>
        cases hr : correlate vm rest with
        | none => rw [hr] at h; exact absurd h (by simp)
        | some l' =>
          rw [hr] at h
          simp only [Option.map_some', Option.some.injEq] at h
          subst h
          have ih := C7_amended vm rest l' hr
          have hp := matchAdapter_props vm.Hardware vm ip e hm
          refine ⟨?_, by simpa using ih.2⟩
          simp only [List.all_cons, Bool.and_eq_true]
          exact ⟨by simp [entryFromEnabledNet, hp.1, hp.2], ih.1⟩

/-- C7 witness: the amended theorem applied at a concrete one-record,
one-adapter correlation. -/
theorem C7_witness :
    correlate vmDupMac [recEth0] = some [ipEntryW] ∧
    (([ipEntryW] : List IpAddr).all (entryFromEnabledNet vmDupMac) = true ∧
     ([ipEntryW] : List IpAddr).length ≤ ([recEth0] : List LinuxIpAddr).length) :=
  ⟨by decide, C7_amended vmDupMac [recEth0] [ipEntryW] (by decide)⟩

/-- A VM that is not running, or whose guest OS is unsupported, yields the
empty entry list together with a per-VM error. -/
theorem showIpAddress_skip (env : GuestEnv) (vm : VMm)
    (h : vm.State ≠ "running" ∨ (vm.OS ≠ "linux" ∧ vm.OS ≠ "ubuntu")) :
    ∃ msg, showIpAddress env vm = some ([], some msg) := by
  by_cases hs : vm.State ≠ "running"
  · exact ⟨vm.Name ++ "(" ++ vm.ID ++ ") not running", by simp [showIpAddress, hs]⟩
  · rcases h with h | ⟨h1, h2⟩
    · exact absurd h hs
    · have hos : ¬ (vm.OS = "linux" ∨ vm.OS = "ubuntu") := by tauto
      exact ⟨vm.OS ++ " is not supported", by simp [showIpAddress, hs, hos]⟩

/-- A VM whose `showIpAddress` reports an error contributes nothing to the
aggregate and leaves the other VMs' entries unchanged. -/
theorem aggregate_skip : ∀ (pre : List (VMm × GuestEnv)) (vm : VMm)
    (env : GuestEnv) (post : List (VMm × GuestEnv)) (msg : String),
    showIpAddress env vm = some ([], some msg) →
    aggregate (pre ++ (vm, env) :: post) = aggregate (pre ++ post)
  | [], vm, env, post, msg, h => by
    have e1 : aggregate ((vm, env) :: post) =
        (match showIpAddress env vm with
         | none => none
         | some (_, some _) => aggregate post
         | some (ips, none) => (aggregate post).map (fun r => ips ++ r)) := rfl
    rw [show aggregate ([] ++ (vm, env) :: post) = aggregate ((vm, env) :: post) from rfl,
        e1, h]
    rfl
  | (v, ev) :: pre, vm, env, post, msg, h => by
    have ih := aggregate_skip pre vm env post msg h
    have e1 : aggregate ((v, ev) :: (pre ++ (vm, env) :: post)) =
        (match showIpAddress ev v with
         | none => none
         | some (_, some _) => aggregate (pre ++ (vm, env) :: post)
         | some (ips, none) =>
            (aggregate (pre ++ (vm, env) :: post)).map (fun r => ips ++ r)) := rfl
    have e2 : aggregate ((v, ev) :: (pre ++ post)) =
        (match showIpAddress ev v with
         | none => none
         | some (_, some _) => aggregate (pre ++ post)
         | some (ips, none) => (aggregate (pre ++ post)).map (fun r => ips ++ r)) := rfl
    show aggregate ((v, ev) :: (pre ++ (vm, env) :: post)) =
      aggregate ((v, ev) :: (pre ++ post))
    rw [e1, e2, ih]

/-- C10: a VM that is not in the "running" state, or whose guest OS is
outside {"linux", "ubuntu"}, gets zero ResolvedAddress entries together
with a per-VM error from `showIpAddress`, and the aggregation loop of
`main` absorbs that error: removing or keeping such a VM anywhere in the
inventory leaves the aggregate entry list of the other VMs unchanged. -/
theorem C10_confirmed : ∀ (env : GuestEnv) (vm : VMm)
    (pre post : List (VMm × GuestEnv)),
    vm.State ≠ "running" ∨ (vm.OS ≠ "linux" ∧ vm.OS ≠ "ubuntu") →
    ((showIpAddress env vm).getD ([], none)).1 = [] ∧
    ((showIpAddress env vm).getD ([], none)).2.isSome = true ∧
    aggregate (pre ++ (vm, env) :: post) = aggregate (pre ++ post) := by
  intro env vm pre post h
  obtain ⟨msg, heq⟩ := showIpAddress_skip env vm h
  rw [heq]
  exact ⟨rfl, rfl, aggregate_skip pre vm env post msg heq⟩

/-- C10 witness: the theorem applied at a stopped VM inserted after a
running VM whose entry survives in the aggregate. -/
theorem C10_confirmed_witness :
    (vmStopped.State ≠ "running" ∨ (vmStopped.OS ≠ "linux" ∧ vmStopped.OS ≠ "ubuntu")) ∧
    (((showIpAddress envEmpty vmStopped).getD ([], none)).1 = [] ∧
     ((showIpAddress envEmpty vmStopped).getD ([], none)).2.isSome = true ∧
     aggregate ([(vmDupMac, envLegacyFull)] ++ (vmStopped, envEmpty) :: []) =
       aggregate ([(vmDupMac, envLegacyFull)] ++ [])) :=
  ⟨Or.inl (by decide),
   C10_confirmed envEmpty vmStopped [(vmDupMac, envLegacyFull)] [] (Or.inl (by decide))⟩

/-- Unfolding equation for the scanner loop on a cons cell. -/
theorem scanIps_cons (b : Bool) (ips : List LinuxIpAddr) (cur : Option LinuxIpAddr)
    (s : String) (rest : List String) :
    scanIps b ips cur (s :: rest) =
      if s.data.isEmpty then scanIps b ips cur rest
      else if isIndentHead s then
        match cur with
        | none => scanIps b ips none rest
        | some r => scanIps b ips (some (applyInfo b s r)) rest
      else scanIps b (flushRec ips cur) (some (mkRecord s)) rest := rfl

/-- The `ips` accumulator of the scanner is a pure prefix of the result. -/
theorem scanIps_acc : ∀ (lines : List String) (b : Bool) (ips : List LinuxIpAddr)
    (cur : Option LinuxIpAddr),
    scanIps b ips cur lines = ips ++ scanIps b [] cur lines
  | [], b, ips, cur => by
    show flushRec ips cur = ips ++ flushRec [] cur
    cases cur <;> simp [flushRec]
  | s :: rest, b, ips, cur => by
    rw [scanIps_cons, scanIps_cons]
    by_cases h1 : s.data.isEmpty = true
    · rw [if_pos h1, if_pos h1]
      exact scanIps_acc rest b ips cur
    · rw [if_neg h1, if_neg h1]
      by_cases h2 : isIndentHead s = true
      · rw [if_pos h2, if_pos h2]
        cases cur with
        | none => exact scanIps_acc rest b ips none
        | some r => exact scanIps_acc rest b ips (some (applyInfo b s r))
      · rw [if_neg h2, if_neg h2]
        have hf : flushRec ips cur = ips ++ flushRec [] cur := by
          cases cur <;> simp [flushRec]
        rw [scanIps_acc rest b (flushRec ips cur) (some (mkRecord s)),
            scanIps_acc rest b (flushRec [] cur) (some (mkRecord s)), hf,
            List.append_assoc]

/-- Appending an info line to a block applies it to the block's record. -/
theorem assembleBlock_snoc_info (b : Bool) (marker s : String) (body : List String)
    (h : isInfoLine s = true) :
    assembleBlock b marker (body ++ [s]) = applyInfo b s (assembleBlock b marker body) := by
  simp [assembleBlock, List.filter_append, List.filter_cons, h, List.foldl_append]

/-- Appending a non-info line to a block leaves its record unchanged. -/
theorem assembleBlock_snoc_skip (b : Bool) (marker s : String) (body : List String)
    (h : isInfoLine s = false) :
    assembleBlock b marker (body ++ [s]) = assembleBlock b marker body := by
  simp [assembleBlock, List.filter_append, List.filter_cons, h, List.foldl_append]

/-- Scanner with an open current block equals the block-map of `blocksAux`. -/
theorem scanIps_some_eq : ∀ (lines : List String) (b : Bool) (marker : String)
    (body : List String),
    scanIps b [] (some (assembleBlock b marker body)) lines =
      (blocksAux marker body lines).map (fun p => assembleBlock b p.1 p.2)
  | [], b, marker, body => by
    show flushRec [] (some (assembleBlock b marker body)) = _
    simp [flushRec, blocksAux]
  | s :: rest, b, marker, body => by
    rw [scanIps_cons]
    by_cases h1 : s.data.isEmpty = true
    · have hm : isMarkerLine s = false := by simp [isMarkerLine, h1]
      have hi : isInfoLine s = false := by simp [isInfoLine, h1]
      rw [if_pos h1,
          show assembleBlock b marker body = assembleBlock b marker (body ++ [s]) from
            (assembleBlock_snoc_skip b marker s body hi).symm,
          scanIps_some_eq rest b marker (body ++ [s])]
      simp only [blocksAux, hm, Bool.false_eq_true, if_false]
    · have h1' : s.data.isEmpty = false := by
        cases hse : s.data.isEmpty
        · rfl
        · exact absurd hse h1
      by_cases h2 : isIndentHead s = true
      · have hm : isMarkerLine s = false := by simp [isMarkerLine, h2]
        have hi : isInfoLine s = true := by simp [isInfoLine, h1', h2]
        rw [if_neg h1, if_pos h2]
        show scanIps b [] (some (applyInfo b s (assembleBlock b marker body))) rest = _
        rw [← assembleBlock_snoc_info b marker s body hi,
            scanIps_some_eq rest b marker (body ++ [s])]
        simp only [blocksAux, hm, Bool.false_eq_true, if_false]
      · have h2' : isIndentHead s = false := by
          cases hih : isIndentHead s
          · rfl
          · exact absurd hih h2
        have hm : isMarkerLine s = true := by simp [isMarkerLine, h1', h2']
        rw [if_neg h1, if_neg h2]
        show scanIps b (flushRec [] (some (assembleBlock b marker body)))
          (some (mkRecord s)) rest = _
        rw [show flushRec [] (some (assembleBlock b marker body)) =
              [assembleBlock b marker body] from rfl,
            scanIps_acc rest b [assembleBlock b marker body] (some (mkRecord s)),
            show mkRecord s = assembleBlock b s [] from rfl,
            scanIps_some_eq rest b s []]
        simp only [blocksAux, hm, if_true, List.map_cons]
        rfl

/-- The scanner loop equals the one-record-per-block specification. -/
theorem scanIps_eq_assembleSpec : ∀ (lines : List String) (b : Bool),
    scanIps b [] none lines = assembleSpec b lines
  | [], b => rfl
  | s :: rest, b => by
    rw [scanIps_cons]
    by_cases h1 : s.data.isEmpty = true
    · have hm : isMarkerLine s = false := by simp [isMarkerLine, h1]
      rw [if_pos h1, scanIps_eq_assembleSpec rest b]
      simp only [assembleSpec, blocks, hm, Bool.false_eq_true, if_false]
    · have h1' : s.data.isEmpty = false := by
        cases hse : s.data.isEmpty
        · rfl
        · exact absurd hse h1
      by_cases h2 : isIndentHead s = true
      · have hm : isMarkerLine s = false := by simp [isMarkerLine, h2]
        rw [if_neg h1, if_pos h2]
        show scanIps b [] none rest = _
        rw [scanIps_eq_assembleSpec rest b]
        simp only [assembleSpec, blocks, hm, Bool.false_eq_true, if_false]
      · have h2' : isIndentHead s = false := by
          cases hih : isIndentHead s
          · rfl
          · exact absurd hih h2
        have hm : isMarkerLine s = true := by simp [isMarkerLine, h1', h2']
        rw [if_neg h1, if_neg h2]
        show scanIps b (flushRec [] none) (some (mkRecord s)) rest = _
        rw [show flushRec [] none = ([] : List LinuxIpAddr) from rfl,
            show mkRecord s = assembleBlock b s [] from rfl,
            scanIps_some_eq rest b s []]
        simp only [assembleSpec, blocks, hm, if_true]

/-- `blocksAux` yields one block per marker line plus the open block. -/
theorem blocksAux_length : ∀ (lines : List String) (marker : String) (body : List String),
    (blocksAux marker body lines).length = 1 + (lines.filter isMarkerLine).length
  | [], marker, body => by simp [blocksAux]
  | s :: rest, marker, body => by
    by_cases hm : isMarkerLine s = true
    · simp [blocksAux, hm, List.filter_cons, blocksAux_length rest s []]
      omega
    · simp [blocksAux, hm, List.filter_cons, blocksAux_length rest marker (body ++ [s])]

/-- `blocks` yields exactly one block per marker line. -/
theorem blocks_length : ∀ lines : List String,
    (blocks lines).length = (lines.filter isMarkerLine).length
  | [] => rfl
  | s :: rest => by
    by_cases hm : isMarkerLine s = true
    · simp [blocks, hm, List.filter_cons, blocksAux_length rest s []]
      omega
    · simp [blocks, hm, List.filter_cons, blocks_length rest]

/-- C6: on any raw text in the modern format, the `getIps` scanner produces
exactly one record per marker line (a nonempty unindented line — the
code starts a new record on every such line), each block's record carrying
exactly the link/inet fields extracted from the indented lines between its
marker and the next marker or end of input; nonempty indented lines before
any marker are dropped, and the pending record is flushed at end of
input — all expressed by equality with the block-split specification
`assembleSpec`. -/
theorem C6_confirmed : ∀ lines : List String,
    scanIps false [] none lines = assembleSpec false lines ∧
    (scanIps false [] none lines).length = (lines.filter isMarkerLine).length := by
  intro lines
  have h := scanIps_eq_assembleSpec lines false
  refine ⟨h, ?_⟩
  rw [h]
  simp [assembleSpec, List.length_map, blocks_length lines]

end SshParallels
